import Mathlib

set_option maxRecDepth 4000

/-!
Verification development for a CHIP-8 interpreter (Rust sources
`cpu.rs`, `parsing.rs`, `graphics.rs`).

The Rust code is embedded shallowly: machine integers (`u8`, `u16`)
are modelled as `Nat` with explicit `% 256` / `% 65536` reductions at
the sites where the source performs wrapping machine arithmetic;
operations that can panic in Rust (out-of-bounds slice or array
indexing) return `Option`, with `none` modelling the panic; the SDL
display collaborator of `graphics.rs` is reduced to its pure state
(the 64x32 framebuffer and the 16-entry key array); external inputs
(file bytes, the random generator) are passed as explicit parameters.
-/

/-- Pointwise update of a `Nat`-indexed byte store (one array-cell write). -/
def upd (f : Nat → Nat) (i v : Nat) : Nat → Nat :=
  fun j => if j = i then v else f j

/-- Pointwise update of a `Nat`-indexed boolean store. -/
def updB (f : Nat → Bool) (i : Nat) (v : Bool) : Nat → Bool :=
  fun j => if j = i then v else f j

/-- The decoded instruction set, from `parsing.rs` (`enum Instruction`).
Operands are register indices (4 bits), immediates (8 bits) or
addresses (12 bits), all carried as `Nat`. -/
inductive Instruction where
  | Sys (addr : Nat)
  | Cls
  | Ret
  | Jp (addr : Nat)
  | Call (addr : Nat)
  | SeV (vx kk : Nat)
  | SneV (vx kk : Nat)
  | Se (vx vy : Nat)
  | LdV (vx kk : Nat)
  | AddV (vx kk : Nat)
  | Ld (vx vy : Nat)
  | Or (vx vy : Nat)
  | And (vx vy : Nat)
  | Xor (vx vy : Nat)
  | Add (vx vy : Nat)
  | Sub (vx vy : Nat)
  | Shr (vx : Nat)
  | Subn (vx vy : Nat)
  | Shl (vx : Nat)
  | Sne (vx vy : Nat)
  | LdI (addr : Nat)
  | JpV0 (addr : Nat)
  | Rnd (vx kk : Nat)
  | Drw (vx vy n : Nat)
  | Skp (vx : Nat)
  | Sknp (vx : Nat)
  | LdDt (vx : Nat)
  | LdK (vx : Nat)
  | LdTd (vx : Nat)
  | LdSt (vx : Nat)
  | AddI (vx : Nat)
  | LdS (vx : Nat)
  | LdBCD (vx : Nat)
  | LdVM (vx : Nat)
  | LdMV (vx : Nat)
  deriving DecidableEq

/-- `parse_noarg` from `parsing.rs`: reads the full 16 bits and matches
the constants `0x00E0` (Cls) and `0x00EE` (Ret). -/
def parse_noarg (b0 b1 : Nat) : Option Instruction :=
  match b0 * 256 + b1 with
  | 0x00E0 => some .Cls
  | 0x00EE => some .Ret
  | _ => none

/-- `parse_onearg_nnn` from `parsing.rs`: a 4-bit group followed by a
12-bit address operand. -/
def parse_onearg_nnn (b0 b1 : Nat) : Option Instruction :=
  let group := b0 / 16
  let arg := (b0 % 16) * 256 + b1
  match group with
  | 0x0 => some (.Sys arg)
  | 0x1 => some (.Jp arg)
  | 0x2 => some (.Call arg)
  | 0xA => some (.LdI arg)
  | 0xB => some (.JpV0 arg)
  | _ => none

/-- `parse_onearg_x` from `parsing.rs`: group, 4-bit register, then an
8-bit sub-op identifier. -/
def parse_onearg_x (b0 b1 : Nat) : Option Instruction :=
  let group := b0 / 16
  let x := b0 % 16
  match group, b1 with
  | 0xE, 0x9E => some (.Skp x)
  | 0xE, 0xA1 => some (.Sknp x)
  | 0xF, 0x07 => some (.LdDt x)
  | 0xF, 0x0A => some (.LdK x)
  | 0xF, 0x15 => some (.LdTd x)
  | 0xF, 0x18 => some (.LdSt x)
  | 0xF, 0x1E => some (.AddI x)
  | 0xF, 0x29 => some (.LdS x)
  | 0xF, 0x33 => some (.LdBCD x)
  | 0xF, 0x55 => some (.LdVM x)
  | 0xF, 0x65 => some (.LdMV x)
  | _, _ => none

/-- `parse_twoarg_xkk` from `parsing.rs`: group, 4-bit register, and an
8-bit immediate. -/
def parse_twoarg_xkk (b0 b1 : Nat) : Option Instruction :=
  let group := b0 / 16
  let x := b0 % 16
  let kk := b1
  match group with
  | 0x3 => some (.SeV x kk)
  | 0x4 => some (.SneV x kk)
  | 0x6 => some (.LdV x kk)
  | 0x7 => some (.AddV x kk)
  | 0xC => some (.Rnd x kk)
  | _ => none

/-- `parse_twoarg_xy` from `parsing.rs`: group, two 4-bit registers,
and a trailing 4-bit sub-op identifier. -/
def parse_twoarg_xy (b0 b1 : Nat) : Option Instruction :=
  let group := b0 / 16
  let x := b0 % 16
  let y := b1 / 16
  match group, b1 % 16 with
  | 0x5, 0x0 => some (.Se x y)
  | 0x8, 0x0 => some (.Ld x y)
  | 0x8, 0x1 => some (.Or x y)
  | 0x8, 0x2 => some (.And x y)
  | 0x8, 0x3 => some (.Xor x y)
  | 0x8, 0x4 => some (.Add x y)
  | 0x8, 0x5 => some (.Sub x y)
  | 0x8, 0x6 => some (.Shr x)
  | 0x8, 0x7 => some (.Subn x y)
  | 0x8, 0xE => some (.Shl x)
  | 0x9, 0x0 => some (.Sne x y)
  | _, _ => none

/-- `parse_threearg` from `parsing.rs`: group and three 4-bit operands
(only group `0xD`, the sprite draw). -/
def parse_threearg (b0 b1 : Nat) : Option Instruction :=
  let group := b0 / 16
  let x := b0 % 16
  let y := b1 / 16
  let z := b1 % 16
  match group with
  | 0xD => some (.Drw x y z)
  | _ => none

/-- `parse_instruction` from `parsing.rs`: the `alt!` chain trying each
sub-grammar in source order on the two opcode bytes. -/
def parse_instruction (b0 b1 : Nat) : Option Instruction :=
  (parse_noarg b0 b1).orElse fun _ =>
  (parse_onearg_nnn b0 b1).orElse fun _ =>
  (parse_onearg_x b0 b1).orElse fun _ =>
  (parse_twoarg_xkk b0 b1).orElse fun _ =>
  (parse_twoarg_xy b0 b1).orElse fun _ =>
  parse_threearg b0 b1

/-- `Instruction::from_slice_one` from `parsing.rs`, on the two bytes of
the fetched slice. -/
def Instruction.from_slice_one (b0 b1 : Nat) : Option Instruction :=
  parse_instruction b0 b1

/-- Outcome of executing one instruction, from `cpu.rs`
(`enum ExecResult`). -/
inductive ExecResult where
  | Success
  | Fail (reason : String)
  | Exit
  deriving DecidableEq

/-- The CPU state from `cpu.rs` (`struct CPUState`), with the nested
`Graphics` collaborator of `graphics.rs` flattened to its pure fields
`screen` (64x32 framebuffer) and `keys` (16 key-pressed flags).
Byte-, word- and boolean-arrays are modelled as `Nat`-indexed
functions. -/
structure CPUState where
  V : Nat → Nat
  I : Nat
  pc : Nat
  memory : Nat → Nat
  screen : Nat → Bool
  keys : Nat → Bool
  delay_timer : Nat
  sound_timer : Nat
  stack : Nat → Nat
  sp : Nat

/-- The 80-byte built-in font, from `cpu.rs` (`static CHIP8_FONTSET`). -/
def CHIP8_FONTSET : List Nat :=
  [0xF0, 0x90, 0x90, 0x90, 0xF0,
   0x20, 0x60, 0x20, 0x20, 0x70,
   0xF0, 0x10, 0xF0, 0x80, 0xF0,
   0xF0, 0x10, 0xF0, 0x10, 0xF0,
   0x90, 0x90, 0xF0, 0x10, 0x10,
   0xF0, 0x80, 0xF0, 0x10, 0xF0,
   0xF0, 0x80, 0xF0, 0x90, 0xF0,
   0xF0, 0x10, 0x20, 0x40, 0x40,
   0xF0, 0x90, 0xF0, 0x90, 0xF0,
   0xF0, 0x90, 0xF0, 0x10, 0xF0,
   0xF0, 0x90, 0xF0, 0x90, 0x90,
   0xE0, 0x90, 0xE0, 0x90, 0xE0,
   0xF0, 0x80, 0x80, 0x80, 0xF0,
   0xE0, 0x90, 0x90, 0x90, 0xE0,
   0xF0, 0x80, 0xF0, 0x80, 0xF0,
   0xF0, 0x80, 0xF0, 0x80, 0x80]

/-- `CPUState::new` from `cpu.rs`: all registers zero, `pc = 0x200`,
zeroed 4K memory with the font set filled into bytes `0..80`. -/
def CPUState.new : CPUState where
  V := fun _ => 0
  I := 0
  pc := 0x200
  memory := fun i => if i < 80 then CHIP8_FONTSET.getD i 0 else 0
  screen := fun _ => false
  keys := fun _ => false
  delay_timer := 0
  sound_timer := 0
  stack := fun _ => 0
  sp := 0

/-- `valid_addr` from `cpu.rs`. -/
def valid_addr (addr : Nat) : Bool := decide (addr ≤ 0xFFF)

/-- `valid_pc` from `cpu.rs`. -/
def valid_pc (addr : Nat) : Bool := decide (0x200 ≤ addr) && decide (addr ≤ 0xFFF)

/-- `valid_reg` from `cpu.rs`. -/
def valid_reg (vx : Nat) : Bool := decide (vx < 16)

/-- `active_key` from `cpu.rs`: the first pressed key among `0..16`. -/
def active_key (keys : Nat → Bool) : Option Nat :=
  (List.range 16).find? fun k => keys k

/-- `Graphics::draw_sprite` from `graphics.rs`, restricted to its pure
effect: XOR-blit the sprite rows onto the 64x32 screen with modulo
wraparound, reporting whether a set pixel was hit again (collision).
The SDL canvas rendering is presentation only and is omitted. -/
def draw_sprite (x y : Nat) (slice : List Nat) (screen : Nat → Bool) :
    Bool × (Nat → Bool) :=
  (List.range slice.length).foldl
    (fun acc i =>
      (List.range 8).foldl
        (fun acc2 j =>
          let scy := (y + i) % 32
          let scx := (x + j) % 64
          let scindex := scy * 64 + scx
          let set := ((slice.getD i 0) >>> (7 - j)) &&& 1
          let setb := set == 1
          let collision := acc2.1 || (acc2.2 scindex && setb)
          (collision, updB acc2.2 scindex (Bool.xor (acc2.2 scindex) setb)))
        acc)
    (false, screen)

/-- `clear_op` from `cpu.rs` (via `Graphics::clear`). -/
def clear_op (s : CPUState) : ExecResult × CPUState :=
  (.Success, { s with screen := fun _ => false })

/-- `draw_op` from `cpu.rs`.  The source slices
`memory[I .. I + n]` with no bounds check; the Rust slice panics when
`I + n` exceeds 4096, modelled by `none`. -/
def draw_op (vx vy n : Nat) (s : CPUState) : Option (ExecResult × CPUState) :=
  if !valid_reg vx || !valid_reg vy then some (.Fail "Invalid register(s)", s)
  else
    let x := s.V vx
    let y := s.V vy
    if s.I + n ≤ 4096 then
      let mem := (List.range n).map fun k => s.memory (s.I + k)
      let res := draw_sprite x y mem s.screen
      some (.Success, { s with screen := res.2,
                               V := upd s.V 0xF (if res.1 then 1 else 0) })
    else none

/-- `return_op` from `cpu.rs`: `Exit` on empty stack, otherwise pop and
validate the return address (the pop is performed before the check). -/
def return_op (s : CPUState) : ExecResult × CPUState :=
  if s.sp = 0 then (.Exit, s)
  else
    let sp' := s.sp - 1
    let pc' := s.stack sp'
    let s1 := { s with sp := sp', pc := pc' }
    if !valid_pc pc' then (.Fail "Invalid return pc", s1)
    else (.Success, s1)

/-- `jump_op` from `cpu.rs`. -/
def jump_op (addr : Nat) (s : CPUState) : ExecResult × CPUState :=
  if !valid_pc addr then (.Fail "Invalid jump", s)
  else (.Success, { s with pc := addr })

/-- `call_op` from `cpu.rs`: the target address is validated before the
stack-overflow check. -/
def call_op (addr : Nat) (s : CPUState) : ExecResult × CPUState :=
  if !valid_pc addr then (.Fail "Invalid call", s)
  else if 16 ≤ s.sp then (.Fail "Stack overflow", s)
  else (.Success, { s with stack := upd s.stack s.sp s.pc,
                           sp := s.sp + 1,
                           pc := addr })

/-- `loadv_op` from `cpu.rs`. -/
def loadv_op (vx byte : Nat) (s : CPUState) : ExecResult × CPUState :=
  if !valid_reg vx then (.Fail "Invalid register", s)
  else (.Success, { s with V := upd s.V vx byte })

/-- `addv_op` from `cpu.rs`: `V[vx] += byte`, 8-bit wrapping. -/
def addv_op (vx byte : Nat) (s : CPUState) : ExecResult × CPUState :=
  if !valid_reg vx then (.Fail "Invalid register", s)
  else (.Success, { s with V := upd s.V vx ((s.V vx + byte) % 256) })

/-- `load_op` from `cpu.rs`. -/
def load_op (vx vy : Nat) (s : CPUState) : ExecResult × CPUState :=
  if !valid_reg vx || !valid_reg vy then (.Fail "Invalid register(s)", s)
  else (.Success, { s with V := upd s.V vx (s.V vy) })

/-- `skipv_op` from `cpu.rs`: conditional skip against an immediate
(`pc` advance is 16-bit wrapping). -/
def skipv_op (vx byte : Nat) (cond : Nat → Nat → Bool) (s : CPUState) :
    ExecResult × CPUState :=
  if !valid_reg vx then (.Fail "Invalid register", s)
  else if cond (s.V vx) byte then (.Success, { s with pc := (s.pc + 2) % 65536 })
  else (.Success, s)

/-- `skip_op` from `cpu.rs`: conditional skip against a register. -/
def skip_op (vx vy : Nat) (cond : Nat → Nat → Bool) (s : CPUState) :
    ExecResult × CPUState :=
  if !valid_reg vx || !valid_reg vy then (.Fail "Invalid register(s)", s)
  else if cond (s.V vx) (s.V vy) then (.Success, { s with pc := (s.pc + 2) % 65536 })
  else (.Success, s)

/-- `arith_op` from `cpu.rs`: binary register arithmetic with the result
stored into `vx` and no flag side effect. -/
def arith_op (vx vy : Nat) (arith : Nat → Nat → Nat) (s : CPUState) :
    ExecResult × CPUState :=
  if !valid_reg vx || !valid_reg vy then (.Fail "Invalid register(s)", s)
  else (.Success, { s with V := upd s.V vx (arith (s.V vx) (s.V vy)) })

/-- `add_op` from `cpu.rs`: 16-bit widened sum decides the carry flag
(written to `V[0xF]` first), then the 8-bit wrapped sum is stored. -/
def add_op (vx vy : Nat) (s : CPUState) : ExecResult × CPUState :=
  if !valid_reg vx || !valid_reg vy then (.Fail "Invalid register(s)", s)
  else
    let arg1 := s.V vx
    let arg2 := s.V vy
    let flag := if 255 < arg1 + arg2 then 1 else 0
    (.Success, { s with V := upd (upd s.V 0xF flag) vx ((arg1 + arg2) % 256) })

/-- `sub_op` from `cpu.rs`: borrow flag written to `V[0xF]` first, then
the 8-bit wrapped difference is stored. -/
def sub_op (vx vy : Nat) (s : CPUState) : ExecResult × CPUState :=
  if !valid_reg vx || !valid_reg vy then (.Fail "Invalid register(s)", s)
  else
    let arg1 := s.V vx
    let arg2 := s.V vy
    let flag := if arg2 < arg1 then 1 else 0
    (.Success, { s with V := upd (upd s.V 0xF flag) vx ((arg1 + 256 - arg2) % 256) })

/-- `loadi_op` from `cpu.rs`: unconditionally sets `I`. -/
def loadi_op (addr : Nat) (s : CPUState) : ExecResult × CPUState :=
  (.Success, { s with I := addr })

/-- `jumpv0_op` from `cpu.rs`. -/
def jumpv0_op (addr : Nat) (s : CPUState) : ExecResult × CPUState :=
  let dest := (s.V 0 + addr) % 65536
  if !valid_pc dest then (.Fail "Invalid jump destination", s)
  else (.Success, { s with pc := dest })

/-- `rand_op` from `cpu.rs`; the thread-local random byte is passed in
as the explicit parameter `rnd`. -/
def rand_op (rnd vx byte : Nat) (s : CPUState) : ExecResult × CPUState :=
  if !valid_reg vx then (.Fail "Invalid register", s)
  else (.Success, { s with V := upd s.V vx ((rnd % 256) &&& byte) })

/-- `skipk_op` from `cpu.rs`: skip on key state.  The source indexes
the 16-entry key array with `V[vx]` unchecked; for `V[vx] ≥ 16` the
Rust indexing panics, modelled by `none`. -/
def skipk_op (vx : Nat) (down : Bool) (s : CPUState) :
    Option (ExecResult × CPUState) :=
  if !valid_reg vx then some (.Fail "Invalid register", s)
  else
    let x := s.V vx
    if x < 16 then
      if s.keys x == down then some (.Success, { s with pc := (s.pc + 2) % 65536 })
      else some (.Success, s)
    else none

/-- `loaddt_op` from `cpu.rs`. -/
def loaddt_op (vx : Nat) (s : CPUState) : ExecResult × CPUState :=
  if !valid_reg vx then (.Fail "Invalid register", s)
  else (.Success, { s with V := upd s.V vx s.delay_timer })

/-- `loadwaitk_op` from `cpu.rs`: spin until a key is pressed and store
the lowest-indexed pressed key.  With the external event stream not
modelled the key array never changes, so the spin with no active key
never terminates; that divergence is modelled by `none`. -/
def loadwaitk_op (vx : Nat) (s : CPUState) : Option (ExecResult × CPUState) :=
  if !valid_reg vx then some (.Fail "Invalid register", s)
  else
    match active_key s.keys with
    | some k => some (.Success, { s with V := upd s.V vx k })
    | none => none

/-- `loadtd_op` from `cpu.rs`. -/
def loadtd_op (vx : Nat) (s : CPUState) : ExecResult × CPUState :=
  if !valid_reg vx then (.Fail "Invalid register", s)
  else (.Success, { s with delay_timer := s.V vx })

/-- `loadst_op` from `cpu.rs`. -/
def loadst_op (vx : Nat) (s : CPUState) : ExecResult × CPUState :=
  if !valid_reg vx then (.Fail "Invalid register", s)
  else (.Success, { s with sound_timer := s.V vx })

/-- `addi_op` from `cpu.rs`: `I += V[vx]`, 16-bit wrapping. -/
def addi_op (vx : Nat) (s : CPUState) : ExecResult × CPUState :=
  if !valid_reg vx then (.Fail "Invalid register", s)
  else (.Success, { s with I := (s.I + s.V vx) % 65536 })

/-- `loads_op` from `cpu.rs`: `I = 5 * V[vx]` (font glyph address). -/
def loads_op (vx : Nat) (s : CPUState) : ExecResult × CPUState :=
  if !valid_reg vx then (.Fail "Invalid register", s)
  else (.Success, { s with I := (5 * s.V vx) % 65536 })

/-- `loadbcd_op` from `cpu.rs`: BCD decomposition of `V[vx]` stored at
`memory[I], memory[I+1], memory[I+2]` after checking
`valid_addr(I + 2)` (the additions are 16-bit).  The memory writes
index the 4096-byte array; an index at or past 4096 panics in Rust,
modelled by `none`. -/
def loadbcd_op (vx : Nat) (s : CPUState) : Option (ExecResult × CPUState) :=
  if !valid_reg vx then some (.Fail "Invalid register", s)
  else if !valid_addr ((s.I + 2) % 65536) then some (.Fail "Invalid destination addr", s)
  else
    let val := s.V vx
    let hundreds := val / 100
    let tens := val % 100 / 10
    let ones := val % 100 % 10
    let i0 := s.I
    let i1 := (s.I + 1) % 65536
    let i2 := (s.I + 2) % 65536
    if i0 < 4096 ∧ i1 < 4096 ∧ i2 < 4096 then
      some (.Success,
        { s with memory := upd (upd (upd s.memory i0 hundreds) i1 tens) i2 ones })
    else none

/-- The register-store loop of `loadvm_op` in `cpu.rs`: writes
`V[i], V[i+1], ...` (`cnt` registers) to `memory[(I + i) mod 2^16]`,
panicking (`none`) when an index reaches past the 4096-byte array. -/
def storeRegs (Vf : Nat → Nat) (I : Nat) : Nat → Nat → (Nat → Nat) → Option (Nat → Nat)
  | _, 0, mem => some mem
  | i, cnt + 1, mem =>
    let idx := (I + i) % 65536
    if idx < 4096 then storeRegs Vf I (i + 1) cnt (upd mem idx (Vf i))
    else none

/-- `loadvm_op` from `cpu.rs`: store `V[0..=vx]` at `memory[I..]` after
checking `valid_addr(I + vx)`. -/
def loadvm_op (vx : Nat) (s : CPUState) : Option (ExecResult × CPUState) :=
  if !valid_reg vx then some (.Fail "Invalid register", s)
  else if !valid_addr ((s.I + vx) % 65536) then some (.Fail "Invalid destination addr", s)
  else
    match storeRegs s.V s.I 0 (vx + 1) s.memory with
    | some mem' => some (.Success, { s with memory := mem' })
    | none => none

/-- The register-load loop of `loadmv_op` in `cpu.rs`: reads
`memory[(I + i) mod 2^16]` into `V[i]` for `cnt` registers, panicking
(`none`) on an out-of-bounds memory index. -/
def loadRegs (mem : Nat → Nat) (I : Nat) : Nat → Nat → (Nat → Nat) → Option (Nat → Nat)
  | _, 0, Vf => some Vf
  | i, cnt + 1, Vf =>
    let idx := (I + i) % 65536
    if idx < 4096 then loadRegs mem I (i + 1) cnt (upd Vf i (mem idx))
    else none

/-- `loadmv_op` from `cpu.rs`: load `memory[I..]` into `V[0..=vx]`. -/
def loadmv_op (vx : Nat) (s : CPUState) : Option (ExecResult × CPUState) :=
  if !valid_reg vx then some (.Fail "Invalid register", s)
  else if !valid_addr ((s.I + vx) % 65536) then some (.Fail "Invalid destination addr", s)
  else
    match loadRegs s.memory s.I 0 (vx + 1) s.V with
    | some V' => some (.Success, { s with V := V' })
    | none => none

/-- `exec_op` from `cpu.rs`: dispatch one decoded instruction to its
handler.  `pc` is assumed to have been advanced past the instruction
already.  `rnd` is the external random byte consumed by `Rnd`. -/
def exec_op (rnd : Nat) (op : Instruction) (s : CPUState) :
    Option (ExecResult × CPUState) :=
  match op with
  | .Sys _ => some (.Success, s)
  | .Cls => some (clear_op s)
  | .Ret => some (return_op s)
  | .Jp addr => some (jump_op addr s)
  | .Call addr => some (call_op addr s)
  | .SeV vx byte => some (skipv_op vx byte (fun a b => a == b) s)
  | .SneV vx byte => some (skipv_op vx byte (fun a b => a != b) s)
  | .Se vx vy => some (skip_op vx vy (fun a b => a == b) s)
  | .Sne vx vy => some (skip_op vx vy (fun a b => a != b) s)
  | .LdV vx byte => some (loadv_op vx byte s)
  | .AddV vx byte => some (addv_op vx byte s)
  | .Ld vx vy => some (load_op vx vy s)
  | .Or vx vy => some (arith_op vx vy (fun a b => a ||| b) s)
  | .And vx vy => some (arith_op vx vy (fun a b => a &&& b) s)
  | .Xor vx vy => some (arith_op vx vy (fun a b => a ^^^ b) s)
  | .Add vx vy => some (add_op vx vy s)
  | .Sub vx vy => some (sub_op vx vy s)
  | .Shr vx => some (arith_op vx vx (fun a _ => a >>> 1) s)
  | .Subn vx vy => some (sub_op vy vx s)
  | .Shl vx => some (arith_op vx vx (fun a _ => (a <<< 1) % 256) s)
  | .LdI addr => some (loadi_op addr s)
  | .JpV0 addr => some (jumpv0_op addr s)
  | .Rnd vx byte => some (rand_op rnd vx byte s)
  | .Drw vx vy n => draw_op vx vy n s
  | .Skp vx => skipk_op vx true s
  | .Sknp vx => skipk_op vx false s
  | .LdDt vx => some (loaddt_op vx s)
  | .LdK vx => loadwaitk_op vx s
  | .LdTd vx => some (loadtd_op vx s)
  | .LdSt vx => some (loadst_op vx s)
  | .AddI vx => some (addi_op vx s)
  | .LdS vx => some (loads_op vx s)
  | .LdBCD vx => loadbcd_op vx s
  | .LdVM vx => loadvm_op vx s
  | .LdMV vx => loadmv_op vx s

/-- Outcome of one iteration of the `run` loop in `cpu.rs`:
the loop either continues (`running`), breaks (`halted`: decode
failure, a `Fail`, or `Exit`), or the process panics (`panicked`). -/
inductive RunOutcome where
  | running (s : CPUState)
  | halted (s : CPUState)
  | panicked

/-- The state carried by a still-running outcome, if any. -/
def RunOutcome.state? : RunOutcome → Option CPUState
  | .running s => some s
  | _ => none

/-- Whether the outcome is the modelled Rust panic. -/
def RunOutcome.isPanic : RunOutcome → Bool
  | .panicked => true
  | _ => false

/-- The timer update at the end of a successful `run` iteration in
`cpu.rs`: each timer is decremented when positive (the beep is a
no-op). -/
def tick_timers (s : CPUState) : CPUState :=
  let s1 := if 0 < s.delay_timer then { s with delay_timer := s.delay_timer - 1 } else s
  if 0 < s1.sound_timer then { s1 with sound_timer := s1.sound_timer - 1 } else s1

/-- One iteration of `CPUState::run` from `cpu.rs`: fetch the 2-byte
slice at `pc` (the slice panics past the end of memory), decode
(`from_slice_one`; a decode failure breaks the loop), advance `pc` by
2, execute, and on success tick the timers.  The `draw_events` input
poll is modelled as delivering no external events, so it leaves the
state unchanged. -/
def step (rnd : Nat) (s : CPUState) : RunOutcome :=
  if s.pc + 2 ≤ 4096 then
    match Instruction.from_slice_one (s.memory s.pc) (s.memory (s.pc + 1)) with
    | none => .halted s
    | some ins =>
      let s1 := { s with pc := (s.pc + 2) % 65536 }
      match exec_op rnd ins s1 with
      | none => .panicked
      | some (.Success, s2) => .running (tick_timers s2)
      | some (.Fail _, s2) => .halted s2
      | some (.Exit, s2) => .halted s2
  else .panicked

/-- `n` iterations of the `run` loop (a break or panic is absorbing). -/
def runSteps (rnd : Nat) : Nat → CPUState → RunOutcome
  | 0, s => .running s
  | n + 1, s =>
    match step rnd s with
    | .running s1 => runSteps rnd n s1
    | out => out

/-- The byte-copy inner loop of `load_rom` in `cpu.rs`: write the
buffered chunk into memory at consecutive addresses. -/
def writeList (mem : Nat → Nat) (i : Nat) : List Nat → (Nat → Nat)
  | [] => mem
  | b :: rest => writeList (upd mem i b) (i + 1) rest

/-- The read loop of `load_rom` in `cpu.rs`: consume the file bytes in
chunks of (at most) the 128-byte buffer, rejecting the load as soon as
a chunk would end past address `0xFFF`.  The file-handle errors
(`File not found`, I/O errors) concern the external filesystem and are
not modelled; `rom` is the byte stream the reads deliver. -/
def load_loop (mem : Nat → Nat) (i : Nat) (rom : List Nat) :
    Except String (Nat → Nat) :=
  if 0xFFF < i + min 128 rom.length then .error "Too many bytes"
  else if min 128 rom.length = 0 then .ok mem
  else
    load_loop (writeList mem i (rom.take (min 128 rom.length)))
      (i + min 128 rom.length) (rom.drop (min 128 rom.length))
termination_by rom.length
decreasing_by
  simp only [List.length_drop]
  omega

/-- `load_rom` from `cpu.rs`: copy the ROM bytes into memory starting
at `0x200`. -/
def load_rom (s : CPUState) (rom : List Nat) : Except String CPUState :=
  match load_loop s.memory 0x200 rom with
  | .error e => .error e
  | .ok m => .ok { s with memory := m }

theorem upd_same (f : Nat → Nat) (i v : Nat) : upd f i v i = v := by
  simp [upd]

theorem upd_other (f : Nat → Nat) {i j : Nat} (v : Nat) (h : j ≠ i) :
    upd f i v j = f j := by
  simp [upd, h]

theorem mem_of_some_pair {p : ExecResult × CPUState} {r : ExecResult}
    {s' : CPUState} (h : some p = some (r, s')) : s' = p.2 := by
  injection h with h1
  rw [h1]

theorem clear_op_mem (s : CPUState) : ((clear_op s).2).memory = s.memory := rfl

theorem return_op_mem (s : CPUState) : ((return_op s).2).memory = s.memory := by
  simp only [return_op]
  split
  · rfl
  · split <;> rfl

theorem jump_op_mem (addr : Nat) (s : CPUState) :
    ((jump_op addr s).2).memory = s.memory := by
  simp only [jump_op]
  split <;> rfl

theorem call_op_mem (addr : Nat) (s : CPUState) :
    ((call_op addr s).2).memory = s.memory := by
  simp only [call_op]
  split
  · rfl
  · split <;> rfl

theorem loadv_op_mem (vx byte : Nat) (s : CPUState) :
    ((loadv_op vx byte s).2).memory = s.memory := by
  simp only [loadv_op]
  split <;> rfl

theorem addv_op_mem (vx byte : Nat) (s : CPUState) :
    ((addv_op vx byte s).2).memory = s.memory := by
  simp only [addv_op]
  split <;> rfl

theorem load_op_mem (vx vy : Nat) (s : CPUState) :
    ((load_op vx vy s).2).memory = s.memory := by
  simp only [load_op]
  split <;> rfl

theorem skipv_op_mem (vx byte : Nat) (cond : Nat → Nat → Bool) (s : CPUState) :
    ((skipv_op vx byte cond s).2).memory = s.memory := by
  simp only [skipv_op]
  split
  · rfl
  · split <;> rfl

theorem skip_op_mem (vx vy : Nat) (cond : Nat → Nat → Bool) (s : CPUState) :
    ((skip_op vx vy cond s).2).memory = s.memory := by
  simp only [skip_op]
  split
  · rfl
  · split <;> rfl

theorem arith_op_mem (vx vy : Nat) (arith : Nat → Nat → Nat) (s : CPUState) :
    ((arith_op vx vy arith s).2).memory = s.memory := by
  simp only [arith_op]
  split <;> rfl

theorem add_op_mem (vx vy : Nat) (s : CPUState) :
    ((add_op vx vy s).2).memory = s.memory := by
  simp only [add_op]
  split <;> rfl

theorem sub_op_mem (vx vy : Nat) (s : CPUState) :
    ((sub_op vx vy s).2).memory = s.memory := by
  simp only [sub_op]
  split <;> rfl

theorem loadi_op_mem (addr : Nat) (s : CPUState) :
    ((loadi_op addr s).2).memory = s.memory := rfl

theorem jumpv0_op_mem (addr : Nat) (s : CPUState) :
    ((jumpv0_op addr s).2).memory = s.memory := by
  simp only [jumpv0_op]
  split <;> rfl

theorem rand_op_mem (rnd vx byte : Nat) (s : CPUState) :
    ((rand_op rnd vx byte s).2).memory = s.memory := by
  simp only [rand_op]
  split <;> rfl

theorem loaddt_op_mem (vx : Nat) (s : CPUState) :
    ((loaddt_op vx s).2).memory = s.memory := by
  simp only [loaddt_op]
  split <;> rfl

theorem loadtd_op_mem (vx : Nat) (s : CPUState) :
    ((loadtd_op vx s).2).memory = s.memory := by
  simp only [loadtd_op]
  split <;> rfl

theorem loadst_op_mem (vx : Nat) (s : CPUState) :
    ((loadst_op vx s).2).memory = s.memory := by
  simp only [loadst_op]
  split <;> rfl

theorem addi_op_mem (vx : Nat) (s : CPUState) :
    ((addi_op vx s).2).memory = s.memory := by
  simp only [addi_op]
  split <;> rfl

theorem loads_op_mem (vx : Nat) (s : CPUState) :
    ((loads_op vx s).2).memory = s.memory := by
  simp only [loads_op]
  split <;> rfl

theorem draw_op_mem {vx vy n : Nat} {s : CPUState} {r : ExecResult}
    {s' : CPUState} (h : draw_op vx vy n s = some (r, s')) :
    s'.memory = s.memory := by
  simp only [draw_op] at h
  split at h
  · rw [mem_of_some_pair h]
  · split at h
    · rw [mem_of_some_pair h]
    · exact Option.noConfusion h

theorem skipk_op_mem {vx : Nat} {down : Bool} {s : CPUState} {r : ExecResult}
    {s' : CPUState} (h : skipk_op vx down s = some (r, s')) :
    s'.memory = s.memory := by
  simp only [skipk_op] at h
  split at h
  · rw [mem_of_some_pair h]
  · split at h
    · split at h
      · rw [mem_of_some_pair h]
      · rw [mem_of_some_pair h]
    · exact Option.noConfusion h

theorem loadwaitk_op_mem {vx : Nat} {s : CPUState} {r : ExecResult}
    {s' : CPUState} (h : loadwaitk_op vx s = some (r, s')) :
    s'.memory = s.memory := by
  simp only [loadwaitk_op] at h
  split at h
  · rw [mem_of_some_pair h]
  · split at h
    · rw [mem_of_some_pair h]
    · exact Option.noConfusion h

theorem loadmv_op_mem {vx : Nat} {s : CPUState} {r : ExecResult}
    {s' : CPUState} (h : loadmv_op vx s = some (r, s')) :
    s'.memory = s.memory := by
  simp only [loadmv_op] at h
  split at h
  · rw [mem_of_some_pair h]
  · split at h
    · rw [mem_of_some_pair h]
    · split at h
      · rw [mem_of_some_pair h]
      · exact Option.noConfusion h

theorem storeRegs_mem_low (Vf : Nat → Nat) (I : Nat) :
    ∀ (cnt i0 : Nat) (mem mem' : Nat → Nat),
      storeRegs Vf I i0 cnt mem = some mem' → 0x50 ≤ I →
      I + i0 + cnt ≤ 65536 → ∀ j, j < 0x50 → mem' j = mem j := by
  intro cnt
  induction cnt with
  | zero =>
    intro i0 mem mem' h _ _ j _
    simp only [storeRegs] at h
    injection h with h1
    rw [h1]
  | succ k ih =>
    intro i0 mem mem' h hI hbound j hj
    simp only [storeRegs] at h
    split at h
    · have hlt : I + i0 < 65536 := by omega
      have hidx : (I + i0) % 65536 = I + i0 := Nat.mod_eq_of_lt hlt
      have hrec := ih (i0 + 1) (upd mem ((I + i0) % 65536) (Vf i0)) mem' h hI (by omega) j hj
      rw [hrec, hidx, upd_other]
      omega
    · exact Option.noConfusion h

theorem loadbcd_op_mem_low {vx : Nat} {s : CPUState} {r : ExecResult}
    {s' : CPUState} (h : loadbcd_op vx s = some (r, s'))
    (hI16 : s.I < 65536) (hI : 0x50 ≤ s.I) :
    ∀ i, i < 0x50 → s'.memory i = s.memory i := by
  intro i hi
  simp only [loadbcd_op] at h
  split at h
  · rw [mem_of_some_pair h]
  · split at h
    · rw [mem_of_some_pair h]
    · split at h
      · rename_i hguard
        have h0 : s.I < 4096 := hguard.1
        have e1 : (s.I + 1) % 65536 = s.I + 1 := Nat.mod_eq_of_lt (by omega)
        have e2 : (s.I + 2) % 65536 = s.I + 2 := Nat.mod_eq_of_lt (by omega)
        rw [mem_of_some_pair h]
        show upd (upd (upd s.memory s.I _) ((s.I + 1) % 65536) _) ((s.I + 2) % 65536) _ i = s.memory i
        rw [e1, e2, upd_other _ _ (by omega), upd_other _ _ (by omega),
            upd_other _ _ (by omega)]
      · exact Option.noConfusion h

theorem loadvm_op_mem_low {vx : Nat} {s : CPUState} {r : ExecResult}
    {s' : CPUState} (h : loadvm_op vx s = some (r, s'))
    (hI16 : s.I < 65536) (hI : 0x50 ≤ s.I) :
    ∀ i, i < 0x50 → s'.memory i = s.memory i := by
  intro i hi
  simp only [loadvm_op] at h
  split at h
  · rw [mem_of_some_pair h]
  · split at h
    · rw [mem_of_some_pair h]
    · rename_i hreg _
      have hvx : vx < 16 := by
        by_contra hc
        exact hreg (by simp [valid_reg, hc])
      split at h
      · rename_i mem' hsr
        by_cases hb : s.I + vx + 1 ≤ 65536
        · have hrec := storeRegs_mem_low s.V s.I (vx + 1) 0 s.memory mem' hsr hI
            (by omega) i hi
          rw [mem_of_some_pair h]
          exact hrec
        · exfalso
          have hbig : 4096 ≤ (s.I + 0) % 65536 := by
            rw [Nat.mod_eq_of_lt (by omega)]
            omega
          simp only [storeRegs] at hsr
          split at hsr
          · omega
          · exact Option.noConfusion hsr
      · exact Option.noConfusion h

/-- Side condition under which an instruction cannot reach the font
region: the only two memory-writing handlers (`loadbcd_op`,
`loadvm_op`) must have `I` pointing at or past `0x50`. -/
def mem_write_safe : Instruction → CPUState → Prop
  | .LdBCD _, s => 0x50 ≤ s.I
  | .LdVM _, s => 0x50 ≤ s.I
  | _, _ => True

/-- Claim C5 (amended): memory bytes `[0x000, 0x050)` equal the 80-byte
built-in font set after construction; executing any opcode preserves
that region, EXCEPT that the memory-writing opcodes `LdBCD` and `LdVM`
are only guaranteed to preserve it when the index register points at
or past `0x50` — the source validates their writes only against the
4096-byte bound, so with `I < 0x50` they can overwrite the font
(see the counterexample). -/
theorem font_region_invariant :
    (∀ i, i < 80 → CPUState.new.memory i = CHIP8_FONTSET.getD i 0) ∧
    (∀ (rnd : Nat) (ins : Instruction) (s : CPUState) (r : ExecResult)
        (s' : CPUState), s.I < 65536 → mem_write_safe ins s →
        exec_op rnd ins s = some (r, s') →
        ∀ i, i < 0x50 → s'.memory i = s.memory i) := by
  constructor
  · intro i hi
    simp only [CPUState.new]
    rw [if_pos hi]
  · intro rnd ins s r s' hI16 hsafe hex i hi
    cases ins with
    | Sys addr =>
      simp only [exec_op] at hex
      rw [mem_of_some_pair hex]
    | Cls =>
      simp only [exec_op] at hex
      rw [mem_of_some_pair hex, clear_op_mem]
    | Ret =>
      simp only [exec_op] at hex
      rw [mem_of_some_pair hex, return_op_mem]
    | Jp addr =>
      simp only [exec_op] at hex
      rw [mem_of_some_pair hex, jump_op_mem]
    | Call addr =>
      simp only [exec_op] at hex
      rw [mem_of_some_pair hex, call_op_mem]
    | SeV vx kk =>
      simp only [exec_op] at hex
      rw [mem_of_some_pair hex, skipv_op_mem]
    | SneV vx kk =>
      simp only [exec_op] at hex
      rw [mem_of_some_pair hex, skipv_op_mem]
    | Se vx vy =>
      simp only [exec_op] at hex
      rw [mem_of_some_pair hex, skip_op_mem]
    | Sne vx vy =>
      simp only [exec_op] at hex
      rw [mem_of_some_pair hex, skip_op_mem]
    | LdV vx kk =>
      simp only [exec_op] at hex
      rw [mem_of_some_pair hex, loadv_op_mem]
    | AddV vx kk =>
      simp only [exec_op] at hex
      rw [mem_of_some_pair hex, addv_op_mem]
    | Ld vx vy =>
      simp only [exec_op] at hex
      rw [mem_of_some_pair hex, load_op_mem]
    | Or vx vy =>
      simp only [exec_op] at hex
      rw [mem_of_some_pair hex, arith_op_mem]
    | And vx vy =>
      simp only [exec_op] at hex
      rw [mem_of_some_pair hex, arith_op_mem]
    | Xor vx vy =>
      simp only [exec_op] at hex
      rw [mem_of_some_pair hex, arith_op_mem]
    | Add vx vy =>
      simp only [exec_op] at hex
      rw [mem_of_some_pair hex, add_op_mem]
    | Sub vx vy =>
      simp only [exec_op] at hex
      rw [mem_of_some_pair hex, sub_op_mem]
    | Shr vx =>
      simp only [exec_op] at hex
      rw [mem_of_some_pair hex, arith_op_mem]
    | Subn vx vy =>
      simp only [exec_op] at hex
      rw [mem_of_some_pair hex, sub_op_mem]
    | Shl vx =>
      simp only [exec_op] at hex
      rw [mem_of_some_pair hex, arith_op_mem]
    | LdI addr =>
      simp only [exec_op] at hex
      rw [mem_of_some_pair hex, loadi_op_mem]
    | JpV0 addr =>
      simp only [exec_op] at hex
      rw [mem_of_some_pair hex, jumpv0_op_mem]
    | Rnd vx kk =>
      simp only [exec_op] at hex
      rw [mem_of_some_pair hex, rand_op_mem]
    | Drw vx vy n =>
      simp only [exec_op] at hex
      rw [draw_op_mem hex]
    | Skp vx =>
      simp only [exec_op] at hex
      rw [skipk_op_mem hex]
    | Sknp vx =>
      simp only [exec_op] at hex
      rw [skipk_op_mem hex]
    | LdDt vx =>
      simp only [exec_op] at hex
      rw [mem_of_some_pair hex, loaddt_op_mem]
    | LdK vx =>
      simp only [exec_op] at hex
      rw [loadwaitk_op_mem hex]
    | LdTd vx =>
      simp only [exec_op] at hex
      rw [mem_of_some_pair hex, loadtd_op_mem]
    | LdSt vx =>
      simp only [exec_op] at hex
      rw [mem_of_some_pair hex, loadst_op_mem]
    | AddI vx =>
      simp only [exec_op] at hex
      rw [mem_of_some_pair hex, addi_op_mem]
    | LdS vx =>
      simp only [exec_op] at hex
      rw [mem_of_some_pair hex, loads_op_mem]
    | LdBCD vx =>
      simp only [exec_op] at hex
      simp only [mem_write_safe] at hsafe
      exact loadbcd_op_mem_low hex hI16 hsafe i hi
    | LdVM vx =>
      simp only [exec_op] at hex
      simp only [mem_write_safe] at hsafe
      exact loadvm_op_mem_low hex hI16 hsafe i hi
    | LdMV vx =>
      simp only [exec_op] at hex
      rw [loadmv_op_mem hex]

theorem writeList_append (l1 l2 : List Nat) :
    ∀ (mem : Nat → Nat) (i : Nat),
      writeList mem i (l1 ++ l2) = writeList (writeList mem i l1) (i + l1.length) l2 := by
  induction l1 with
  | nil =>
    intro mem i
    simp [writeList]
  | cons b rest ih =>
    intro mem i
    show writeList (upd mem i b) (i + 1) (rest ++ l2) = _
    rw [ih (upd mem i b) (i + 1)]
    show _ = writeList (writeList (upd mem i b) (i + 1) rest) (i + (rest.length + 1)) l2
    have : i + 1 + rest.length = i + (rest.length + 1) := by omega
    rw [this]

theorem writeList_eval (l : List Nat) :
    ∀ (mem : Nat → Nat) (i a : Nat),
      writeList mem i l a =
        if i ≤ a ∧ a < i + l.length then l.getD (a - i) 0 else mem a := by
  induction l with
  | nil =>
    intro mem i a
    show mem a = _
    rw [if_neg (by simp only [List.length_nil]; omega)]
  | cons b rest ih =>
    intro mem i a
    show writeList (upd mem i b) (i + 1) rest a = _
    rw [ih]
    by_cases h1 : i + 1 ≤ a ∧ a < i + 1 + rest.length
    · rw [if_pos h1, if_pos (by simp only [List.length_cons]; omega)]
      have hsub : a - i = (a - (i + 1)) + 1 := by omega
      rw [hsub]
      rfl
    · rw [if_neg h1]
      by_cases h2 : a = i
      · subst h2
        rw [if_pos (by simp only [List.length_cons]; omega)]
        simp [upd]
      · rw [upd_other _ _ h2, if_neg (by simp only [List.length_cons]; omega)]

theorem load_loop_spec :
    ∀ (fuel : Nat) (rom : List Nat) (mem : Nat → Nat) (i : Nat),
      rom.length ≤ fuel → i ≤ 0xFFF →
      (0xFFF < i + rom.length → load_loop mem i rom = .error "Too many bytes") ∧
      (i + rom.length ≤ 0xFFF → load_loop mem i rom = .ok (writeList mem i rom)) := by
  intro fuel
  induction fuel with
  | zero =>
    intro rom mem i hf hi
    have hz : rom.length = 0 := by omega
    have hnil : rom = [] := List.length_eq_zero.mp hz
    subst hnil
    constructor
    · intro hlong
      simp only [List.length_nil] at hlong
      omega
    · intro _
      rw [load_loop]
      rw [if_neg (by simp; omega), if_pos (by simp)]
      rfl
  | succ n ih =>
    intro rom mem i hf hi
    by_cases hfail : 0xFFF < i + min 128 rom.length
    · have herr : load_loop mem i rom = .error "Too many bytes" := by
        rw [load_loop, if_pos hfail]
      constructor
      · intro _
        exact herr
      · intro hok
        exfalso
        have : min 128 rom.length ≤ rom.length := Nat.min_le_right _ _
        omega
    · by_cases hdone : min 128 rom.length = 0
      · have hz : rom.length = 0 := by omega
        have hnil : rom = [] := List.length_eq_zero.mp hz
        subst hnil
        constructor
        · intro hlong
          simp only [List.length_nil] at hlong
          omega
        · intro _
          rw [load_loop, if_neg hfail, if_pos hdone]
          rfl
      · have hr1 : 1 ≤ min 128 rom.length := by omega
        have hstep : load_loop mem i rom =
            load_loop (writeList mem i (rom.take (min 128 rom.length)))
              (i + min 128 rom.length) (rom.drop (min 128 rom.length)) := by
          rw [load_loop, if_neg hfail, if_neg hdone]
        have hlen : (rom.drop (min 128 rom.length)).length =
            rom.length - min 128 rom.length := List.length_drop _ _
        have hmle : min 128 rom.length ≤ rom.length := Nat.min_le_right _ _
        have hrec := ih (rom.drop (min 128 rom.length))
          (writeList mem i (rom.take (min 128 rom.length)))
          (i + min 128 rom.length)
          (by rw [hlen]; omega) (by omega)
        constructor
        · intro hlong
          rw [hstep]
          exact hrec.1 (by rw [hlen]; omega)
        · intro hok
          rw [hstep, hrec.2 (by rw [hlen]; omega)]
          have htl : (rom.take (min 128 rom.length)).length = min 128 rom.length := by
            rw [List.length_take]
            omega
          have happ := writeList_append (rom.take (min 128 rom.length))
            (rom.drop (min 128 rom.length)) mem i
          rw [htl] at happ
          rw [← happ, List.take_append_drop]


theorem load_rom_eq_error {s : CPUState} {rom : List Nat} {e : String}
    (h : load_loop s.memory 0x200 rom = .error e) : load_rom s rom = .error e := by
  unfold load_rom
  rw [h]

theorem load_rom_eq_ok {s : CPUState} {rom : List Nat} {m : Nat → Nat}
    (h : load_loop s.memory 0x200 rom = .ok m) :
    load_rom s rom = .ok { s with memory := m } := by
  unfold load_rom
  rw [h]

/-- Claim C1 (amended): for register indices `vx, vy < 16` with
`vx ≠ 0xF`, `Add(vx, vy)` succeeds, sets `V[0xF]` to 1 exactly when
the unsigned sum exceeds 255 (else 0), and stores the sum modulo 256
into `V[vx]`; the wrapping arithmetic never produces an error.  The
`vx ≠ 0xF` restriction is forced: the handler writes the carry flag
first and the wrapped sum second, so for `vx = 0xF` the sum overwrites
the flag (see the counterexample). -/
theorem add_op_semantics (rnd : Nat) (s : CPUState) (vx vy : Nat)
    (hx : vx < 16) (hy : vy < 16) (hne : vx ≠ 0xF) :
    ∃ s', exec_op rnd (.Add vx vy) s = some (.Success, s') ∧
      s'.V 0xF = (if 255 < s.V vx + s.V vy then 1 else 0) ∧
      s'.V vx = (s.V vx + s.V vy) % 256 := by
  have hcond : (!valid_reg vx || !valid_reg vy) = false := by
    simp [valid_reg, hx, hy]
  refine ⟨{ s with V := (upd (upd s.V 0xF (if 255 < s.V vx + s.V vy then 1 else 0)) vx ((s.V vx + s.V vy) % 256)) }, ?_, ?_, ?_⟩
  · simp [exec_op, add_op, hcond]
  · show upd (upd s.V 0xF _) vx _ 0xF = _
    rw [upd_other _ _ (Ne.symm hne), upd_same]
  · show upd (upd s.V 0xF _) vx _ vx = _
    rw [upd_same]

/-- Claim C1 witness: `V[0]=0xFF, V[1]=2`, `Add(0, 1)` gives
`V[0]=1` with carry `V[0xF]=1`. -/
theorem add_op_semantics_witness :
    ∃ s', exec_op 0 (.Add 0 1)
        { CPUState.new with V := upd (upd CPUState.new.V 0 0xFF) 1 2 } =
      some (.Success, s') ∧ s'.V 0xF = 1 ∧ s'.V 0 = 1 := by
  obtain ⟨s', h1, h2, h3⟩ := add_op_semantics 0
    { CPUState.new with V := upd (upd CPUState.new.V 0 0xFF) 1 2 } 0 1
    (by decide) (by decide) (by decide)
  refine ⟨s', h1, ?_, ?_⟩
  · rw [h2]; decide
  · rw [h3]; decide

/-- Claim C1 counterexample: with `vx = 0xF` the stored sum clobbers
the carry flag.  Here `V[0xF]=100, V[0]=100`: the sum 200 does not
exceed 255, so the claim demands `V[0xF] = 0`, but executing
`Add(0xF, 0)` leaves `V[0xF] = 200`. -/
theorem add_op_vF_clobber_counterexample :
    (exec_op 0 (.Add 0xF 0)
        { CPUState.new with V := upd (upd CPUState.new.V 0xF 100) 0 100 }).map
      (fun p => (p.1, p.2.V 0xF)) = some (.Success, 200) ∧ (200 : Nat) ≠ 0 :=
  ⟨by decide, by decide⟩

/-- Claim C2 (code bug): the source routes `Shr`/`Shl` through
`arith_op`, which writes only `V[vx]`; the carry flag `V[0xF]` is
never set to the shifted-out bit.  `Shl(0)` with `V[0]=0xFF` (high bit
1) leaves `V[0xF]=0`, and `Shr(1)` with `V[1]=1` (low bit 1) leaves
`V[0xF]=0`, both contradicting the claimed flag semantics while the
shifts themselves behave as claimed. -/
theorem shift_ops_leave_carry_flag_unchanged :
    ((exec_op 0 (.Shl 0) { CPUState.new with V := upd CPUState.new.V 0 0xFF }).map
        fun p => (p.1, p.2.V 0, p.2.V 0xF)) = some (.Success, 0xFE, 0) ∧
    ((exec_op 0 (.Shr 1) { CPUState.new with V := upd CPUState.new.V 1 1 }).map
        fun p => (p.1, p.2.V 1, p.2.V 0xF)) = some (.Success, 0, 0) :=
  ⟨by decide, by decide⟩

/-- Sequential execution of a list of already-decoded instructions,
continuing only while each returns `Success` (statement helper for
chained `exec_op` runs). -/
def execs (rnd : Nat) (l : List Instruction) (s : CPUState) : Option CPUState :=
  l.foldl
    (fun acc ins => acc.bind fun st =>
      match exec_op rnd ins st with
      | some (.Success, st2) => some st2
      | _ => none)
    (some s)

/-- Claim C3 (amended): `Ret` with `sp = 0` yields `Exit` (not a
fault); `Call(addr)` with `sp = 16` yields `Fail("Stack overflow")`
for every addr in valid program space (the source validates the target
address first, so an invalid addr yields `Fail("Invalid call")`
instead — see the counterexample); and from the initial state 16
consecutive `Call 0x200` all succeed (reaching `sp = 16`) while a 17th
fails with the stack-overflow fault. -/
theorem stack_discipline :
    (∀ s : CPUState, s.sp = 0 → return_op s = (.Exit, s)) ∧
    (∀ (s : CPUState) (addr : Nat), s.sp = 16 → valid_pc addr = true →
      call_op addr s = (.Fail "Stack overflow", s)) ∧
    ((execs 0 (List.replicate 16 (.Call 0x200)) CPUState.new).map
        (fun s => s.sp) = some 16) ∧
    (((execs 0 (List.replicate 16 (.Call 0x200)) CPUState.new).bind
        (fun s => exec_op 0 (.Call 0x200) s)).map Prod.fst =
      some (.Fail "Stack overflow")) := by
  refine ⟨?_, ?_, by decide, by decide⟩
  · intro s hsp
    simp [return_op, hsp]
  · intro s addr hsp hv
    simp [call_op, hv, hsp]

/-- Claim C3 witness: `Ret` on the fresh state exits; `Call 0x300`
with a full stack overflows. -/
theorem stack_discipline_witness :
    return_op CPUState.new = (.Exit, CPUState.new) ∧
    call_op 0x300 { CPUState.new with sp := 16 } =
      (.Fail "Stack overflow", { CPUState.new with sp := 16 }) :=
  ⟨stack_discipline.1 CPUState.new rfl,
   stack_discipline.2.1 { CPUState.new with sp := 16 } 0x300 rfl (by decide)⟩

/-- Claim C3 counterexample: with a full stack but an invalid target
address (0, outside program space), `Call` reports
`Fail("Invalid call")`, not `Fail("Stack overflow")` — the address
check runs first, refuting the claim for every addr. -/
theorem call_op_invalid_addr_counterexample :
    (call_op 0 { CPUState.new with sp := 16 }).1 = .Fail "Invalid call" ∧
    (ExecResult.Fail "Invalid call" ≠ .Fail "Stack overflow") :=
  ⟨by decide, by decide⟩

/-- Claim C4 (code bug): `draw_op` slices `memory[I .. I + n]` with no
bounds check, so when `I + n` exceeds the 4096-byte memory the Rust
slice panics instead of returning `Fail`.  Here `LdI 0xFFF` (a legal
instruction: `LdI` is unvalidated) followed by `Drw(0, 0, 2)` reaches
the panic, modelled by `none`. -/
theorem draw_op_out_of_bounds_panic :
    ((exec_op 0 (.LdI 0xFFF) CPUState.new).bind fun p =>
      exec_op 0 (.Drw 0 0 2) p.2) = none := rfl

/-- Claim C5 witness: byte 0 of fresh memory is the first font byte,
and executing `LdV(0, 7)` (a `mem_write_safe` instruction) preserves
font byte 0. -/
theorem font_region_invariant_witness :
    CPUState.new.memory 0 = CHIP8_FONTSET.getD 0 0 ∧
    ({ CPUState.new with V := upd CPUState.new.V 0 7 }).memory 0 =
      CPUState.new.memory 0 :=
  ⟨font_region_invariant.1 0 (by decide),
   font_region_invariant.2 0 (.LdV 0 7) CPUState.new .Success
     { CPUState.new with V := upd CPUState.new.V 0 7 }
     (by decide) (by trivial) rfl 0 (by decide)⟩

/-- Claim C5 counterexample: a reachable, fully successful execution
mutates the font region.  The ROM `[0xA0,0x00, 0xF1,0x33]` is
`LdI 0; LdBCD V1`: after two run-loop steps, `memory[0]` holds the BCD
hundreds digit 0 of `V[1]`, where construction had written the font
byte `0xF0`. -/
theorem font_overwrite_counterexample :
    ((load_rom CPUState.new [0xA0, 0x00, 0xF1, 0x33]).toOption.bind fun s0 =>
        (runSteps 0 2 s0).state?).map (fun s => s.memory 0) = some 0 ∧
    CPUState.new.memory 0 = 0xF0 := by
  have h := (load_loop_spec 4 [0xA0, 0x00, 0xF1, 0x33] CPUState.new.memory 0x200
    (by decide) (by decide)).2 (by decide)
  constructor
  · rw [load_rom_eq_ok h]
    decide
  · decide

/-- Claim C6 (amended): for `vx < 16` with `vx ≠ 0xF`, `AddV(vx, kk)`
succeeds, stores `(V[vx] + kk) mod 256` (8-bit wrapping, no error),
and leaves `V[0xF]` unchanged.  The restriction is forced: for
`vx = 0xF` the target register IS `V[0xF]`, so it changes (see the
counterexample); there is no carry-flag side effect for any `vx`. -/
theorem addv_op_semantics (rnd : Nat) (s : CPUState) (vx kk : Nat)
    (hx : vx < 16) (hne : vx ≠ 0xF) :
    ∃ s', exec_op rnd (.AddV vx kk) s = some (.Success, s') ∧
      s'.V vx = (s.V vx + kk) % 256 ∧ s'.V 0xF = s.V 0xF := by
  have hcond : (!valid_reg vx) = false := by simp [valid_reg, hx]
  refine ⟨{ s with V := upd s.V vx ((s.V vx + kk) % 256) }, ?_, ?_, ?_⟩
  · simp [exec_op, addv_op, hcond]
  · exact upd_same s.V vx _
  · exact upd_other s.V _ (Ne.symm hne)

/-- Claim C6 witness: `AddV(0, 5)` on the fresh state stores 5 and
leaves `V[0xF]` at 0. -/
theorem addv_op_semantics_witness :
    ∃ s', exec_op 0 (.AddV 0 5) CPUState.new = some (.Success, s') ∧
      s'.V 0 = 5 ∧ s'.V 0xF = 0 := by
  obtain ⟨s', h1, h2, h3⟩ := addv_op_semantics 0 CPUState.new 0 5
    (by decide) (by decide)
  refine ⟨s', h1, ?_, ?_⟩
  · rw [h2]; decide
  · rw [h3]; decide

/-- Claim C6 counterexample: `AddV(0xF, 1)` changes `V[0xF]` from 0 to
1 — with `vx = 0xF` the add target is the flag register itself, so
"leaves V[0xF] unchanged" fails. -/
theorem addv_op_vF_counterexample :
    (exec_op 0 (.AddV 0xF 1) CPUState.new).map (fun p => (p.1, p.2.V 0xF)) =
      some (.Success, 1) ∧ CPUState.new.V 0xF = 0 ∧ (1 : Nat) ≠ 0 :=
  ⟨by decide, by decide, by decide⟩

set_option maxRecDepth 100000 in
set_option maxHeartbeats 4000000 in
/-- Claim C7 (confirmed): the six decoder fixtures hold, and every
2-byte pattern whose high nibble is 0, other than `0x00E0`/`0x00EE`,
decodes to `Sys(addr)` with `addr` the low 12 bits — group 0 never
produces a decode failure. -/
theorem decoder_fixtures_and_group0 :
    parse_instruction 0x00 0xE0 = some .Cls ∧
    parse_instruction 0x00 0xEE = some .Ret ∧
    parse_instruction 0x12 0x34 = some (.Jp 0x234) ∧
    parse_instruction 0x6A 0x07 = some (.LdV 0xA 0x07) ∧
    parse_instruction 0x8A 0xB4 = some (.Add 0xA 0xB) ∧
    parse_instruction 0xD1 0x2F = some (.Drw 1 2 0xF) ∧
    (∀ b0 b1 : Nat, b0 < 16 → b1 < 256 → b0 * 256 + b1 ≠ 0x0E0 →
      b0 * 256 + b1 ≠ 0x0EE →
      parse_instruction b0 b1 = some (.Sys (b0 * 256 + b1))) := by
  refine ⟨by decide, by decide, by decide, by decide, by decide, by decide, ?_⟩
  have key : ∀ b0 < 16, ∀ b1 < 256, b0 * 256 + b1 ≠ 0x0E0 →
      b0 * 256 + b1 ≠ 0x0EE →
      parse_instruction b0 b1 = some (.Sys (b0 * 256 + b1)) := by decide
  exact fun b0 b1 h0 h1 => key b0 h0 b1 h1

/-- Claim C7 witness: `0x0123` decodes to `Sys 0x123` through the
group-0 catch-all. -/
theorem decoder_fixtures_and_group0_witness :
    parse_instruction 0x01 0x23 = some (.Sys 0x123) :=
  decoder_fixtures_and_group0.2.2.2.2.2.2 1 0x23 (by decide) (by decide)
    (by decide) (by decide)

/-- Claim C8 (confirmed): loading the ROM
`[0x60,0x05, 0x61,0x03, 0x80,0x14]` (LdV V0,5; LdV V1,3; Add V0,V1)
into the fresh state and running exactly 3 fetch-decode-execute steps
leaves `V[0] = 8`, `V[0xF] = 0` and `pc = 0x206`. -/
theorem rom_scenario_three_steps :
    ((load_rom CPUState.new [0x60, 0x05, 0x61, 0x03, 0x80, 0x14]).toOption.bind
        fun s0 => (runSteps 0 3 s0).state?).map (fun s => (s.V 0, s.V 0xF, s.pc)) =
      some (8, 0, 0x206) := by
  have h := (load_loop_spec 6 [0x60, 0x05, 0x61, 0x03, 0x80, 0x14]
    CPUState.new.memory 0x200 (by decide) (by decide)).2 (by decide)
  rw [load_rom_eq_ok h]
  decide

/-- Claim C9 (amended): `load_rom` writes the ROM bytes into memory
starting at `0x200` and fails with the too-large error exactly when
the ROM is longer than `0xDFF` bytes.  The bound is `0xDFF`, not the
claimed `0xE00`: the source rejects a chunk as soon as its end pointer
`i + read` exceeds `0xFFF`, so a ROM whose last byte would land
exactly at address `0xFFF` is already rejected (see the
counterexample). -/
theorem load_rom_bounds (rom : List Nat) :
    ((load_rom CPUState.new rom).isOk = true ↔ rom.length ≤ 0xDFF) ∧
    (0xDFF < rom.length → load_rom CPUState.new rom = .error "Too many bytes") ∧
    (∀ s', load_rom CPUState.new rom = .ok s' →
      ∀ j, j < rom.length → s'.memory (0x200 + j) = rom.getD j 0) := by
  have hspec := load_loop_spec rom.length rom CPUState.new.memory 0x200
    le_rfl (by norm_num)
  by_cases hlen : rom.length ≤ 0xDFF
  · have hok := hspec.2 (by omega)
    have hlr : load_rom CPUState.new rom = .ok { CPUState.new with
        memory := writeList CPUState.new.memory 0x200 rom } := load_rom_eq_ok hok
    refine ⟨⟨fun _ => hlen, fun _ => by rw [hlr]; rfl⟩, fun hc => by omega, ?_⟩
    intro s' hs' j hj
    rw [hlr] at hs'
    injection hs' with h1
    rw [← h1]
    show writeList CPUState.new.memory 0x200 rom (0x200 + j) = _
    rw [writeList_eval, if_pos (by omega)]
    have harg : 0x200 + j - 0x200 = j := by omega
    rw [harg]
  · have herr := hspec.1 (by omega)
    have hlr : load_rom CPUState.new rom = .error "Too many bytes" :=
      load_rom_eq_error herr
    refine ⟨⟨fun hc => ?_, fun hc => by omega⟩, fun _ => hlr, ?_⟩
    · rw [hlr] at hc
      exact Bool.noConfusion hc
    · intro s' hs'
      rw [hlr] at hs'
      exact Except.noConfusion hs'

/-- Claim C9 witness: the 1-byte ROM `[7]` loads successfully and its
byte lands at `memory[0x200]`. -/
theorem load_rom_bounds_witness :
    (load_rom CPUState.new [7]).isOk = true ∧
    ((load_rom CPUState.new [7]).toOption.map fun s => s.memory 0x200) =
      some 7 := by
  have h := load_rom_bounds [7]
  have h1 : (load_rom CPUState.new [7]).isOk = true := h.1.mpr (by decide)
  refine ⟨h1, ?_⟩
  cases hl : load_rom CPUState.new [7] with
  | error e =>
    rw [hl] at h1
    exact Bool.noConfusion h1
  | ok s =>
    have h2 := h.2.2 s hl 0 (by decide)
    norm_num at h2
    show some (s.memory 0x200) = some 7
    rw [h2]

/-- Claim C9 counterexample: a ROM of exactly `0xE00` bytes — whose
last byte would land at address `0xFFF` — is rejected with the
too-large error, refuting the claim that every ROM of at most `0xE00`
bytes loads. -/
theorem load_rom_e00_counterexample :
    load_rom CPUState.new (List.replicate 0xE00 0) = .error "Too many bytes" ∧
    (List.replicate 0xE00 (0 : Nat)).length = 0xE00 := by
  constructor
  · have h := (load_loop_spec (List.replicate 0xE00 (0 : Nat)).length
      (List.replicate 0xE00 0) CPUState.new.memory 0x200 le_rfl (by norm_num)).1
      (by rw [List.length_replicate]; norm_num)
    exact load_rom_eq_error h
  · rw [List.length_replicate]

/-- Claim C10 (amended): for `vx < 16`, `Skp(vx)` and `Sknp(vx)`
return `Success` (never `Fail`) whenever the key index `V[vx]` is
below 16; but the key lookup `keys[V[vx]]` is NOT always within the
16-entry array — when `V[vx] ≥ 16` the Rust indexing panics (modelled
by `none`), so the handler is not well-defined there (see the
counterexample). -/
theorem skipk_op_semantics (rnd : Nat) (s : CPUState) (vx : Nat)
    (hx : vx < 16) :
    (s.V vx < 16 →
      ((exec_op rnd (.Skp vx) s).map Prod.fst = some .Success ∧
        (exec_op rnd (.Sknp vx) s).map Prod.fst = some .Success)) ∧
    (16 ≤ s.V vx →
      exec_op rnd (.Skp vx) s = none ∧ exec_op rnd (.Sknp vx) s = none) := by
  have hcond : ¬ ((!valid_reg vx) = true) := by simp [valid_reg, hx]
  constructor
  · intro hv
    constructor <;>
      · simp only [exec_op, skipk_op, if_neg hcond, if_pos hv]
        split <;> rfl
  · intro hv
    have hnv : ¬ (s.V vx < 16) := by omega
    constructor <;>
      simp only [exec_op, skipk_op, if_neg hcond, if_neg hnv]

/-- Claim C10 witness: `Skp(3)` with `V[3] = 5` succeeds; `Skp(0)`
with `V[0] = 16` panics on the out-of-bounds key lookup. -/
theorem skipk_op_semantics_witness :
    (exec_op 0 (.Skp 3) { CPUState.new with V := upd CPUState.new.V 3 5 }).map
        Prod.fst = some .Success ∧
    exec_op 0 (.Skp 0) { CPUState.new with V := upd CPUState.new.V 0 16 } =
      none :=
  ⟨((skipk_op_semantics 0 { CPUState.new with V := upd CPUState.new.V 3 5 } 3
      (by decide)).1 (by decide)).1,
   ((skipk_op_semantics 0 { CPUState.new with V := upd CPUState.new.V 0 16 } 0
      (by decide)).2 (by decide)).1⟩

/-- Claim C10 counterexample: the panic is reachable through the run
loop — the ROM `[0x60,0x10, 0xE0,0x9E]` is `LdV V0,16; Skp V0`, and
after two steps the interpreter hits the out-of-bounds key index 16
and panics, refuting well-definedness for every reachable state. -/
theorem skipk_oob_panic_counterexample :
    ((load_rom CPUState.new [0x60, 0x10, 0xE0, 0x9E]).toOption.map fun s0 =>
      (runSteps 0 2 s0).isPanic) = some true := by
  have h := (load_loop_spec 4 [0x60, 0x10, 0xE0, 0x9E] CPUState.new.memory 0x200
    (by decide) (by decide)).2 (by decide)
  rw [load_rom_eq_ok h]
  decide
